import Mathlib

/-!
Verification of the NPV mortgage calculator core (`src/lib/calculator.ts`).

Embedding conventions:

* JavaScript `number` arithmetic inside `runModel` is pure field arithmetic
  (add, mul, div, integer powers); it is embedded over `ℚ`, modelling the
  exact real-number semantics of the same formulas.  Floating-point rounding
  is out of scope; every claim settled here is algebraic/structural.
* The only non-field operation in the module is the rate conversion
  `annualToMonthly(r) = (1+r)^(1/12) - 1` (a real 12th root).  It is embedded
  separately over `ℝ` (`annualToMonthly` below).  `runModel` consumes only the
  *converted monthly* rates, so the `ℚ` embedding of `runModel` takes those
  monthly rates as inputs (fields `discountRateMonthly`, `mortgageRateMonthly`,
  `homeAppreciationRateMonthly`, `rentInflationRateMonthly`); the per-annum
  cost rates that the code divides by 12 (`propertyTaxRateAnnual`,
  `maintenanceRateAnnual`, `insuranceAnnual`) are kept annual as in the source.
* `analysisYears`, `mortgageTermYears` and `sellAfterYears` are month-grid
  counts and are embedded as `ℕ` (`months = analysisYears * 12` is used as an
  array length in the source).
* The optional `startDate`/`date` string fields are presentation-only and are
  omitted.  The `MonthRecord` structure below mirrors *exactly* the fields of
  the object literals pushed by `runModel` (calculator.ts lines 96-117 and
  194-215); in particular those literals contain no `equity` and no
  `percentagePaidOff` field, although `lib/types.ts` declares both as required.
-/

namespace NpvMortgage

/-- Inputs of one model run, mirroring the `Inputs` type of `lib/types.ts`
with the four compound-growth rates already converted to monthly form (see
module docstring).  Optional TS fields (`closingCosts`, `loanFees`,
`renterInsuranceMonthly`, `otherRentCostsMonthly`) are the `|| 0` defaulted
values the code computes. -/
structure Inputs where
  analysisYears : ℕ
  discountRateMonthly : ℚ
  homePrice : ℚ
  downPaymentPercent : ℚ
  mortgageRateMonthly : ℚ
  mortgageTermYears : ℕ
  hoaMonthly : ℚ
  propertyTaxRateAnnual : ℚ
  insuranceAnnual : ℚ
  maintenanceRateAnnual : ℚ
  homeAppreciationRateMonthly : ℚ
  sellingCostPercentOfHomeValue : ℚ
  sellAfterYears : Option ℕ
  closingCosts : ℚ
  loanFees : ℚ
  initialMonthlyRent : ℚ
  rentInflationRateMonthly : ℚ
  renterInsuranceMonthly : ℚ
  otherRentCostsMonthly : ℚ

/-- One month's record, with exactly the fields of the object literals pushed
by `runModel` (no `equity`, no `percentagePaidOff`, no `date`). -/
structure MonthRecord where
  monthIndex : ℕ
  rentPayment : ℚ
  rentCF : ℚ
  rentDiscountedCF : ℚ
  rentCumulativeNPV : ℚ
  mortgagePayment : ℚ
  mortgageInterest : ℚ
  mortgagePrincipal : ℚ
  mortgageBalance : ℚ
  propertyTax : ℚ
  maintenance : ℚ
  insurance : ℚ
  hoa : ℚ
  homeValue : ℚ
  saleProceeds : ℚ
  buyCF : ℚ
  buyDiscountedCF : ℚ
  buyCumulativeNPV : ℚ
  discountFactor : ℚ

/-- Summary block of a run (`Summary` in `lib/types.ts`). -/
structure Summary where
  months : ℕ
  buyTotalNPV : ℚ
  rentTotalNPV : ℚ
  npvDifference : ℚ
  sellMonthIndex : ℕ
  breakEvenMonthIndex : Option ℕ
  breakEvenYears : Option ℚ

/-- Result of a run (`ModelResult` in `lib/types.ts`, minus the echoed inputs). -/
structure ModelResult where
  monthly : List MonthRecord
  summary : Summary

/-- Rate conversion `annualToMonthly` (calculator.ts lines 6-8):
`Math.pow(1 + annualRate, 1/12) - 1`, a real 12th root, embedded over `ℝ`
with `Real.rpow`. -/
noncomputable def annualToMonthly (annualRate : ℝ) : ℝ :=
  (1 + annualRate) ^ ((1 : ℝ) / 12) - 1

/-- Level mortgage payment (calculator.ts lines 13-25): PMT formula with the
zero-rate branch `loanAmount / numPayments`. -/
def calculateMortgagePayment (loanAmount monthlyRate : ℚ) (numPayments : ℕ) : ℚ :=
  if monthlyRate = 0 then loanAmount / numPayments
  else loanAmount * monthlyRate * (1 + monthlyRate) ^ numPayments /
      ((1 + monthlyRate) ^ numPayments - 1)

/-- Total month count `months = analysisYears * 12` (calculator.ts line 32). -/
def months (inp : Inputs) : ℕ := inp.analysisYears * 12

/-- Sale month: `sellAfterYears * 12` when given, otherwise the final month
(calculator.ts lines 33-36). -/
def sellMonthIndex (inp : Inputs) : ℕ :=
  match inp.sellAfterYears with
  | some y => y * 12
  | none => months inp

/-- Loan principal `homePrice * (1 - downPaymentPercent)` (line 50). -/
def loanAmount (inp : Inputs) : ℚ := inp.homePrice * (1 - inp.downPaymentPercent)

/-- Down payment `homePrice * downPaymentPercent` (line 51). -/
def downPayment (inp : Inputs) : ℚ := inp.homePrice * inp.downPaymentPercent

/-- Mortgage term in months (line 58). -/
def mortgageTermMonths (inp : Inputs) : ℕ := inp.mortgageTermYears * 12

/-- The level payment constant: computed once, guarded by a positive term
(lines 59-62). -/
def mortgagePaymentConst (inp : Inputs) : ℚ :=
  if 0 < mortgageTermMonths inp then
    calculateMortgagePayment (loanAmount inp) inp.mortgageRateMonthly (mortgageTermMonths inp)
  else 0

/-- Projected home value `homePrice * (1 + monthlyAppreciation)^i` (lines 74-76). -/
def homeValueAt (inp : Inputs) (i : ℕ) : ℚ :=
  inp.homePrice * (1 + inp.homeAppreciationRateMonthly) ^ i

/-- Projected rent `initialMonthlyRent * (1 + monthlyInflation)^i` (lines 77-79). -/
def rentPaymentAt (inp : Inputs) (i : ℕ) : ℚ :=
  inp.initialMonthlyRent * (1 + inp.rentInflationRateMonthly) ^ i

/-- Discount factor `1 / (1 + monthlyDiscount)^i` (lines 83-86; the array is
pre-filled with 1 at index 0, which coincides with the formula at `i = 0`). -/
def discountFactorAt (inp : Inputs) (i : ℕ) : ℚ :=
  1 / (1 + inp.discountRateMonthly) ^ i

/-- Monthly property-tax rate `propertyTaxRateAnnual / 12` (line 46). -/
def propertyTaxRateMonthly (inp : Inputs) : ℚ := inp.propertyTaxRateAnnual / 12

/-- Monthly maintenance rate `maintenanceRateAnnual / 12` (line 47). -/
def maintenanceRateMonthly (inp : Inputs) : ℚ := inp.maintenanceRateAnnual / 12

/-- Monthly insurance `insuranceAnnual / 12` (line 48). -/
def insuranceMonthly (inp : Inputs) : ℚ := inp.insuranceAnnual / 12

/-- Output of one month's mortgage computation inside the loop. -/
structure MortStep where
  payment : ℚ
  interest : ℚ
  principal : ℚ
  newBalance : ℚ

/-- One month of the amortization logic (calculator.ts lines 123-143) for
month `i ≥ 1` with prior balance `prev`: while the month is within the term
and the prior balance is positive, charge interest `prev * rate`, principal
`payment - interest` clamped to the remaining balance (final-month
correction), and reduce the balance; otherwise force everything to zero. -/
def mortStep (inp : Inputs) (i : ℕ) (prev : ℚ) : MortStep :=
  if i ≤ mortgageTermMonths inp ∧ 0 < prev then
    if prev < mortgagePaymentConst inp - prev * inp.mortgageRateMonthly then
      { payment := prev * inp.mortgageRateMonthly + prev
        interest := prev * inp.mortgageRateMonthly
        principal := prev
        newBalance := prev - prev }
    else
      { payment := mortgagePaymentConst inp
        interest := prev * inp.mortgageRateMonthly
        principal := mortgagePaymentConst inp - prev * inp.mortgageRateMonthly
        newBalance := prev - (mortgagePaymentConst inp - prev * inp.mortgageRateMonthly) }
  else
    { payment := 0, interest := 0, principal := 0, newBalance := 0 }

/-- The `mortgageBalances` array: `mortgageBalances[0] = loanAmount` (line 71)
and each later entry is produced by that month's amortization step. -/
def mortgageBalance (inp : Inputs) : ℕ → ℚ
  | 0 => loanAmount inp
  | i + 1 => (mortStep inp (i + 1) (mortgageBalance inp i)).newBalance

/-- The amortization step taken at month `i ≥ 1`, fed the prior balance. -/
def stepAt (inp : Inputs) (i : ℕ) : MortStep :=
  mortStep inp i (mortgageBalance inp (i - 1))

/-- Net sale proceeds, non-zero only at the sale month inside the loop
(calculator.ts lines 160-170): `grossSale - grossSale*sellingCostPct -
remainingLoanBalance`. -/
def saleProceedsAt (inp : Inputs) (i : ℕ) : ℚ :=
  if 1 ≤ i ∧ i = sellMonthIndex inp then
    homeValueAt inp i - homeValueAt inp i * inp.sellingCostPercentOfHomeValue -
      mortgageBalance inp i
  else 0

/-- Buy-side cash flow: month 0 is the one-time outflow
`-(downPayment + closingCosts + loanFees)` (line 90); later months are
`-(mortgagePayment + propertyTax + maintenance + insurance + hoa)` plus the
sale proceeds (lines 152-173). -/
def buyCF (inp : Inputs) (i : ℕ) : ℚ :=
  if i = 0 then -(downPayment inp + inp.closingCosts + inp.loanFees)
  else
    -((stepAt inp i).payment + homeValueAt inp i * propertyTaxRateMonthly inp +
        homeValueAt inp i * maintenanceRateMonthly inp + insuranceMonthly inp +
        inp.hoaMonthly) +
      saleProceedsAt inp i

/-- Rent-side cash flow: 0 at month 0 (line 91), otherwise
`-(rent + renterInsurance + otherRentCosts)` (line 176). -/
def rentCF (inp : Inputs) (i : ℕ) : ℚ :=
  if i = 0 then 0
  else -(rentPaymentAt inp i + inp.renterInsuranceMonthly + inp.otherRentCostsMonthly)

/-- Running buy cumulative NPV: the accumulator `buyCumulativeNPV` of the
loop (lines 120, 183) — a plain running sum of discounted buy cash flows. -/
def buyCumNPV (inp : Inputs) : ℕ → ℚ
  | 0 => buyCF inp 0 * discountFactorAt inp 0
  | i + 1 => buyCumNPV inp i + buyCF inp (i + 1) * discountFactorAt inp (i + 1)

/-- Running rent cumulative NPV (lines 121, 184). -/
def rentCumNPV (inp : Inputs) : ℕ → ℚ
  | 0 => rentCF inp 0 * discountFactorAt inp 0
  | i + 1 => rentCumNPV inp i + rentCF inp (i + 1) * discountFactorAt inp (i + 1)

/-- The record pushed for month `i`, mirroring the object literals of
calculator.ts lines 96-117 (month 0) and 194-215 (months ≥ 1) field by
field.  Note these literals carry no `equity` / `percentagePaidOff` field. -/
def monthRecord (inp : Inputs) (i : ℕ) : MonthRecord :=
  { monthIndex := i
    rentPayment := rentPaymentAt inp i
    rentCF := rentCF inp i
    rentDiscountedCF := rentCF inp i * discountFactorAt inp i
    rentCumulativeNPV := rentCumNPV inp i
    mortgagePayment := if i = 0 then 0 else (stepAt inp i).payment
    mortgageInterest := if i = 0 then 0 else (stepAt inp i).interest
    mortgagePrincipal := if i = 0 then 0 else (stepAt inp i).principal
    mortgageBalance := mortgageBalance inp i
    propertyTax := if i = 0 then 0 else homeValueAt inp i * propertyTaxRateMonthly inp
    maintenance := if i = 0 then 0 else homeValueAt inp i * maintenanceRateMonthly inp
    insurance := if i = 0 then 0 else insuranceMonthly inp
    hoa := if i = 0 then 0 else inp.hoaMonthly
    homeValue := homeValueAt inp i
    saleProceeds := saleProceedsAt inp i
    buyCF := buyCF inp i
    buyDiscountedCF := buyCF inp i * discountFactorAt inp i
    buyCumulativeNPV := buyCumNPV inp i
    discountFactor := discountFactorAt inp i }

/-- The `monthly` array: records for months `0 .. months` (length `months+1`). -/
def monthlyList (inp : Inputs) : List MonthRecord :=
  (List.range (months inp + 1)).map (monthRecord inp)

/-- Break-even scan (calculator.ts lines 221-229): starting at month `start`
with `fuel` months left to inspect, return the first month whose buy
cumulative NPV is at least the rent cumulative NPV. -/
def firstGE (inp : Inputs) : ℕ → ℕ → Option ℕ
  | _, 0 => none
  | start, fuel + 1 =>
    if rentCumNPV inp start ≤ buyCumNPV inp start then some start
    else firstGE inp (start + 1) fuel

/-- Reported break-even month: scan months `0 .. months` in order. -/
def breakEvenMonthIndex (inp : Inputs) : Option ℕ :=
  firstGE inp 0 (months inp + 1)

/-- The summary (calculator.ts lines 231-239): the final cumulative NPVs, the
difference `rent - buy`, the sale month and the break-even data
(`breakEvenYears = breakEvenMonthIndex / 12`). -/
def summaryOf (inp : Inputs) : Summary :=
  { months := months inp
    buyTotalNPV := buyCumNPV inp (months inp)
    rentTotalNPV := rentCumNPV inp (months inp)
    npvDifference := rentCumNPV inp (months inp) - buyCumNPV inp (months inp)
    sellMonthIndex := sellMonthIndex inp
    breakEvenMonthIndex := breakEvenMonthIndex inp
    breakEvenYears := (breakEvenMonthIndex inp).map (fun i => (i : ℚ) / 12) }

/-- The whole run (`runModel`, calculator.ts lines 30-246). -/
def runModel (inp : Inputs) : ModelResult :=
  { monthly := monthlyList inp, summary := summaryOf inp }


/-! Concrete runs used to evaluate the code at specific inputs.  All
monthly-rate fields are 0 (an annual rate of 0 converts to a monthly rate of
0), so these correspond to exact TS runs with zero annual rates. -/

/-- Failing input for the equity-related claims: a 1-year run on a $100,000
home, 20% down ($20,000), 0% rates, 30-year 0% mortgage, 6% selling costs,
no sale year given (sale defaults to the final month 12). -/
def failInput : Inputs :=
  { analysisYears := 1
    discountRateMonthly := 0
    homePrice := 100000
    downPaymentPercent := 1 / 5
    mortgageRateMonthly := 0
    mortgageTermYears := 30
    hoaMonthly := 0
    propertyTaxRateAnnual := 0
    insuranceAnnual := 0
    maintenanceRateAnnual := 0
    homeAppreciationRateMonthly := 0
    sellingCostPercentOfHomeValue := 3 / 50
    sellAfterYears := none
    closingCosts := 0
    loanFees := 0
    initialMonthlyRent := 1000
    rentInflationRateMonthly := 0
    renterInsuranceMonthly := 0
    otherRentCostsMonthly := 0 }

/-- Invalid input for the validation claim: a zero-length mortgage term
together with a positive loan amount ($240,000), over a 2-year horizon. -/
def zeroTermInput : Inputs :=
  { analysisYears := 2
    discountRateMonthly := 0
    homePrice := 300000
    downPaymentPercent := 1 / 5
    mortgageRateMonthly := 0
    mortgageTermYears := 0
    hoaMonthly := 0
    propertyTaxRateAnnual := 0
    insuranceAnnual := 0
    maintenanceRateAnnual := 0
    homeAppreciationRateMonthly := 0
    sellingCostPercentOfHomeValue := 0
    sellAfterYears := none
    closingCosts := 0
    loanFees := 0
    initialMonthlyRent := 1000
    rentInflationRateMonthly := 0
    renterInsuranceMonthly := 0
    otherRentCostsMonthly := 0 }

/-- Example scenario B of the spec: a $240,000 loan ($300,000 home, 20%
down) at 0% mortgage rate over a 10-year term, 10-year horizon. -/
def zeroRateInput : Inputs :=
  { analysisYears := 10
    discountRateMonthly := 0
    homePrice := 300000
    downPaymentPercent := 1 / 5
    mortgageRateMonthly := 0
    mortgageTermYears := 10
    hoaMonthly := 0
    propertyTaxRateAnnual := 0
    insuranceAnnual := 0
    maintenanceRateAnnual := 0
    homeAppreciationRateMonthly := 0
    sellingCostPercentOfHomeValue := 0
    sellAfterYears := none
    closingCosts := 0
    loanFees := 0
    initialMonthlyRent := 2000
    rentInflationRateMonthly := 0
    renterInsuranceMonthly := 0
    otherRentCostsMonthly := 0 }

/-- Degenerate run whose month-0 buy and rent cumulative NPVs tie at 0, so
break-even is reported at month 0. -/
def tieInput : Inputs :=
  { analysisYears := 1
    discountRateMonthly := 0
    homePrice := 0
    downPaymentPercent := 0
    mortgageRateMonthly := 0
    mortgageTermYears := 30
    hoaMonthly := 0
    propertyTaxRateAnnual := 0
    insuranceAnnual := 0
    maintenanceRateAnnual := 0
    homeAppreciationRateMonthly := 0
    sellingCostPercentOfHomeValue := 0
    sellAfterYears := none
    closingCosts := 0
    loanFees := 0
    initialMonthlyRent := 0
    rentInflationRateMonthly := 0
    renterInsuranceMonthly := 0
    otherRentCostsMonthly := 0 }

/-- Run with an explicit sale year (`sellAfterYears = 1`) inside a 2-year
horizon, used to witness the sale-month claim. -/
def sellInput : Inputs :=
  { analysisYears := 2
    discountRateMonthly := 0
    homePrice := 100000
    downPaymentPercent := 1 / 5
    mortgageRateMonthly := 0
    mortgageTermYears := 30
    hoaMonthly := 0
    propertyTaxRateAnnual := 0
    insuranceAnnual := 0
    maintenanceRateAnnual := 0
    homeAppreciationRateMonthly := 0
    sellingCostPercentOfHomeValue := 3 / 50
    sellAfterYears := some 1
    closingCosts := 0
    loanFees := 0
    initialMonthlyRent := 1000
    rentInflationRateMonthly := 0
    renterInsuranceMonthly := 0
    otherRentCostsMonthly := 0 }

/-- Run with `sellAfterYears = 0`: the sale month computes to 0, which the
loop (months 1 and up) never reaches, so no sale is ever applied. -/
def sellZeroInput : Inputs :=
  { analysisYears := 2
    discountRateMonthly := 0
    homePrice := 100000
    downPaymentPercent := 1 / 5
    mortgageRateMonthly := 0
    mortgageTermYears := 30
    hoaMonthly := 0
    propertyTaxRateAnnual := 0
    insuranceAnnual := 0
    maintenanceRateAnnual := 0
    homeAppreciationRateMonthly := 0
    sellingCostPercentOfHomeValue := 3 / 50
    sellAfterYears := some 0
    closingCosts := 0
    loanFees := 0
    initialMonthlyRent := 1000
    rentInflationRateMonthly := 0
    renterInsuranceMonthly := 0
    otherRentCostsMonthly := 0 }

/-! Helper lemmas about the amortization recursion. -/

/-- Partial evaluation: the balance after month `i+1` is the step outcome. -/
lemma mortgageBalance_succ (inp : Inputs) (i : ℕ) :
    mortgageBalance inp (i + 1) = (stepAt inp (i + 1)).newBalance := by
  simp [stepAt, mortgageBalance]

/-- In every branch of the step, the payment splits as interest plus principal. -/
lemma mortStep_payment_split (inp : Inputs) (i : ℕ) (prev : ℚ) :
    (mortStep inp i prev).payment =
      (mortStep inp i prev).interest + (mortStep inp i prev).principal := by
  unfold mortStep
  split_ifs with h1 h2 <;> simp

/-- Once the step is in its dead branch, every output is zero. -/
lemma mortStep_dead (inp : Inputs) (i : ℕ) (prev : ℚ)
    (h : ¬(i ≤ mortgageTermMonths inp ∧ 0 < prev)) :
    (mortStep inp i prev).payment = 0 ∧ (mortStep inp i prev).interest = 0 ∧
      (mortStep inp i prev).principal = 0 ∧ (mortStep inp i prev).newBalance = 0 := by
  unfold mortStep
  rw [if_neg h]
  simp

/-- The balance never goes negative when the loan is non-negative: the clamp
keeps each principal charge at most the prior balance. -/
lemma mortgageBalance_nonneg (inp : Inputs) (hL : 0 ≤ loanAmount inp) :
    ∀ i, 0 ≤ mortgageBalance inp i := by
  intro i
  induction i with
  | zero => simpa [mortgageBalance] using hL
  | succ k ih =>
    rw [mortgageBalance]
    unfold mortStep
    split_ifs with h1 h2
    · simp
    · simp only []
      push_neg at h2
      linarith
    · simp

/-- A zero balance is absorbing for one step. -/
lemma mortgageBalance_zero_succ (inp : Inputs) {i : ℕ}
    (h : mortgageBalance inp i = 0) : mortgageBalance inp (i + 1) = 0 := by
  rw [mortgageBalance]
  unfold mortStep
  rw [if_neg]
  rintro ⟨-, hpos⟩
  rw [h] at hpos
  exact lt_irrefl 0 hpos

/-- A zero balance is absorbing forever. -/
lemma mortgageBalance_zero_of_le (inp : Inputs) {i j : ℕ}
    (h : mortgageBalance inp i = 0) (hij : i ≤ j) : mortgageBalance inp j = 0 := by
  induction j, hij using Nat.le_induction with
  | base => exact h
  | succ m _ ih => exact mortgageBalance_zero_succ inp ih

/-- With a zero loan the balance is identically zero. -/
lemma mortgageBalance_of_loan_zero (inp : Inputs) (h : loanAmount inp = 0) :
    ∀ i, mortgageBalance inp i = 0 := by
  intro i
  exact mortgageBalance_zero_of_le inp (by simpa [mortgageBalance] using h) (Nat.zero_le i)



/-- The live no-clamp branch of the step, spelled out. -/
lemma mortStep_live (inp : Inputs) (i : ℕ) (prev : ℚ)
    (hc : i ≤ mortgageTermMonths inp ∧ 0 < prev)
    (hnc : ¬(prev < mortgagePaymentConst inp - prev * inp.mortgageRateMonthly)) :
    (mortStep inp i prev).payment = mortgagePaymentConst inp ∧
      (mortStep inp i prev).interest = prev * inp.mortgageRateMonthly ∧
      (mortStep inp i prev).principal =
        mortgagePaymentConst inp - prev * inp.mortgageRateMonthly ∧
      (mortStep inp i prev).newBalance =
        prev - (mortgagePaymentConst inp - prev * inp.mortgageRateMonthly) := by
  unfold mortStep
  rw [if_pos hc, if_neg hnc]
  exact ⟨rfl, rfl, rfl, rfl⟩

/-- The live clamped (final-payment) branch of the step, spelled out. -/
lemma mortStep_clamp (inp : Inputs) (i : ℕ) (prev : ℚ)
    (hc : i ≤ mortgageTermMonths inp ∧ 0 < prev)
    (hcl : prev < mortgagePaymentConst inp - prev * inp.mortgageRateMonthly) :
    (mortStep inp i prev).payment = prev * inp.mortgageRateMonthly + prev ∧
      (mortStep inp i prev).interest = prev * inp.mortgageRateMonthly ∧
      (mortStep inp i prev).principal = prev ∧
      (mortStep inp i prev).newBalance = prev - prev := by
  unfold mortStep
  rw [if_pos hc, if_pos hcl]
  exact ⟨rfl, rfl, rfl, rfl⟩

/-- Unfolding the balance recursion one step. -/
lemma mortgageBalance_succ_step (inp : Inputs) (i : ℕ) :
    mortgageBalance inp (i + 1) =
      (mortStep inp (i + 1) (mortgageBalance inp i)).newBalance := rfl

/-- Payment identity for a positive rate, multiplied through by the
denominator `(1+r)^n - 1`. -/
lemma mortgagePaymentConst_mul (inp : Inputs)
    (hn : 0 < mortgageTermMonths inp) (hr : 0 < inp.mortgageRateMonthly) :
    mortgagePaymentConst inp *
        ((1 + inp.mortgageRateMonthly) ^ mortgageTermMonths inp - 1) =
      loanAmount inp * inp.mortgageRateMonthly *
        (1 + inp.mortgageRateMonthly) ^ mortgageTermMonths inp := by
  have hq : (1 : ℚ) < 1 + inp.mortgageRateMonthly := by linarith
  have hpow : (1 : ℚ) < (1 + inp.mortgageRateMonthly) ^ mortgageTermMonths inp :=
    one_lt_pow₀ hq hn.ne'
  have hne : (1 + inp.mortgageRateMonthly) ^ mortgageTermMonths inp - 1 ≠ 0 := by
    linarith
  unfold mortgagePaymentConst calculateMortgagePayment
  rw [if_pos hn, if_neg hr.ne']
  exact div_mul_cancel₀ _ hne

/-- Payment identity for rate zero: `P * n = L`. -/
lemma mortgagePaymentConst_zero_rate (inp : Inputs)
    (hn : 0 < mortgageTermMonths inp) (hr : inp.mortgageRateMonthly = 0) :
    mortgagePaymentConst inp * (mortgageTermMonths inp : ℚ) = loanAmount inp := by
  have hn' : (0 : ℚ) < (mortgageTermMonths inp : ℚ) := by exact_mod_cast hn
  unfold mortgagePaymentConst calculateMortgagePayment
  rw [if_pos hn, if_pos hr]
  exact div_mul_cancel₀ _ hn'.ne'

/-- Closed form of the balance for a positive rate, multiplied through by the
denominator: `balance(i) * ((1+r)^n - 1) = L * ((1+r)^n - (1+r)^i)` for
`i ≤ n`.  In exact arithmetic the clamp never fires before the term ends. -/
lemma mortgageBalance_closed (inp : Inputs)
    (hr : 0 < inp.mortgageRateMonthly) (hL : 0 < loanAmount inp) :
    ∀ i, i ≤ mortgageTermMonths inp →
      mortgageBalance inp i *
          ((1 + inp.mortgageRateMonthly) ^ mortgageTermMonths inp - 1) =
        loanAmount inp *
          ((1 + inp.mortgageRateMonthly) ^ mortgageTermMonths inp -
            (1 + inp.mortgageRateMonthly) ^ i) := by
  have hq : (1 : ℚ) < 1 + inp.mortgageRateMonthly := by linarith
  intro i
  induction i with
  | zero => intro _; simp [mortgageBalance]
  | succ k ih =>
    intro hk1
    have hkn : k < mortgageTermMonths inp := by omega
    have hnpos : 0 < mortgageTermMonths inp := by omega
    have IH := ih (by omega)
    have hD : 0 < (1 + inp.mortgageRateMonthly) ^ mortgageTermMonths inp - 1 := by
      have := one_lt_pow₀ hq hnpos.ne'
      linarith
    have hqi : (1 + inp.mortgageRateMonthly) ^ k <
        (1 + inp.mortgageRateMonthly) ^ mortgageTermMonths inp :=
      pow_lt_pow_right₀ hq hkn
    have hbk : 0 < mortgageBalance inp k := by
      nlinarith [mul_pos hL (sub_pos.mpr hqi)]
    have hP := mortgagePaymentConst_mul inp hnpos hr
    have hq1n : (1 + inp.mortgageRateMonthly) ^ (k + 1) ≤
        (1 + inp.mortgageRateMonthly) ^ mortgageTermMonths inp :=
      pow_le_pow_right₀ (le_of_lt hq) hk1
    have h4 : 0 ≤ loanAmount inp *
        ((1 + inp.mortgageRateMonthly) ^ mortgageTermMonths inp -
          (1 + inp.mortgageRateMonthly) ^ (k + 1)) :=
      mul_nonneg hL.le (sub_nonneg.mpr hq1n)
    have h3 : mortgageBalance inp k * (1 + inp.mortgageRateMonthly) *
          ((1 + inp.mortgageRateMonthly) ^ mortgageTermMonths inp - 1) -
        mortgagePaymentConst inp *
          ((1 + inp.mortgageRateMonthly) ^ mortgageTermMonths inp - 1) =
        loanAmount inp *
          ((1 + inp.mortgageRateMonthly) ^ mortgageTermMonths inp -
            (1 + inp.mortgageRateMonthly) ^ (k + 1)) := by
      linear_combination (1 + inp.mortgageRateMonthly) * IH - hP
    have hnc : ¬(mortgageBalance inp k <
        mortgagePaymentConst inp - mortgageBalance inp k * inp.mortgageRateMonthly) := by
      push_neg
      nlinarith [h3, h4, hD]
    rw [mortgageBalance_succ_step inp k,
      (mortStep_live inp (k + 1) _ ⟨hk1, hbk⟩ hnc).2.2.2]
    linear_combination (1 + inp.mortgageRateMonthly) * IH - hP

/-- Closed form for rate zero, multiplied through by the term:
`balance(i) * n = L * (n - i)` for `i ≤ n`. -/
lemma mortgageBalance_linear (inp : Inputs) (hn : 0 < mortgageTermMonths inp)
    (hr : inp.mortgageRateMonthly = 0) (hL : 0 < loanAmount inp) :
    ∀ i, i ≤ mortgageTermMonths inp →
      mortgageBalance inp i * (mortgageTermMonths inp : ℚ) =
        loanAmount inp * ((mortgageTermMonths inp : ℚ) - (i : ℚ)) := by
  have hn' : (0 : ℚ) < (mortgageTermMonths inp : ℚ) := by exact_mod_cast hn
  have hP := mortgagePaymentConst_zero_rate inp hn hr
  intro i
  induction i with
  | zero => intro _; simp [mortgageBalance]
  | succ k ih =>
    intro hk1
    have hkQ : ((k : ℚ)) + 1 ≤ (mortgageTermMonths inp : ℚ) := by exact_mod_cast hk1
    have IH := ih (by omega)
    have hgap : (0 : ℚ) ≤ (mortgageTermMonths inp : ℚ) - (k : ℚ) - 1 := by linarith
    have hbk : 0 < mortgageBalance inp k := by
      nlinarith [mul_nonneg hL.le hgap]
    have hnc : ¬(mortgageBalance inp k <
        mortgagePaymentConst inp - mortgageBalance inp k * inp.mortgageRateMonthly) := by
      rw [hr]
      push_neg
      nlinarith [mul_nonneg hL.le hgap]
    rw [mortgageBalance_succ_step inp k,
      (mortStep_live inp (k + 1) _ ⟨hk1, hbk⟩ hnc).2.2.2, hr]
    push_cast
    linear_combination IH - hP

/-- Exact full payoff: the balance is zero at the end of the term. -/
lemma mortgageBalance_term (inp : Inputs) (hn : 0 < mortgageTermMonths inp)
    (hL : 0 ≤ loanAmount inp) (hr : 0 ≤ inp.mortgageRateMonthly) :
    mortgageBalance inp (mortgageTermMonths inp) = 0 := by
  rcases hL.lt_or_eq with hL1 | hL1
  · rcases hr.lt_or_eq with hr1 | hr1
    · have h := mortgageBalance_closed inp hr1 hL1 (mortgageTermMonths inp) le_rfl
      have hq : (1 : ℚ) < 1 + inp.mortgageRateMonthly := by linarith
      have hD : ((1 + inp.mortgageRateMonthly) ^ mortgageTermMonths inp - 1) ≠ 0 := by
        have := one_lt_pow₀ hq hn.ne'
        linarith
      have h0 : mortgageBalance inp (mortgageTermMonths inp) *
          ((1 + inp.mortgageRateMonthly) ^ mortgageTermMonths inp - 1) = 0 := by
        rw [h]
        ring
      exact (mul_eq_zero.mp h0).resolve_right hD
    · have h := mortgageBalance_linear inp hn hr1.symm hL1 (mortgageTermMonths inp) le_rfl
      have hn' : ((mortgageTermMonths inp : ℚ)) ≠ 0 := by
        exact_mod_cast hn.ne'
      have h0 : mortgageBalance inp (mortgageTermMonths inp) *
          (mortgageTermMonths inp : ℚ) = 0 := by
        rw [h]
        ring
      exact (mul_eq_zero.mp h0).resolve_right hn'
  · exact mortgageBalance_of_loan_zero inp hL1.symm _

/-- The balance is zero from the end of the term onwards. -/
lemma mortgageBalance_beyond (inp : Inputs) (hn : 0 < mortgageTermMonths inp)
    (hL : 0 ≤ loanAmount inp) (hr : 0 ≤ inp.mortgageRateMonthly) :
    ∀ i, mortgageTermMonths inp ≤ i → mortgageBalance inp i = 0 :=
  fun _ hi => mortgageBalance_zero_of_le inp (mortgageBalance_term inp hn hL hr) hi



/-- Monotonicity of the balance sequence, given a non-negative loan and
non-negative monthly mortgage rate. -/
lemma mortgageBalance_mono (inp : Inputs) (hL : 0 ≤ loanAmount inp)
    (hr : 0 ≤ inp.mortgageRateMonthly) :
    ∀ i, mortgageBalance inp (i + 1) ≤ mortgageBalance inp i := by
  intro i
  by_cases hc : i + 1 ≤ mortgageTermMonths inp ∧ 0 < mortgageBalance inp i
  · by_cases hcl : mortgageBalance inp i <
        mortgagePaymentConst inp - mortgageBalance inp i * inp.mortgageRateMonthly
    · rw [mortgageBalance_succ_step inp i, (mortStep_clamp inp (i + 1) _ hc hcl).2.2.2]
      linarith [hc.2]
    · rw [mortgageBalance_succ_step inp i, (mortStep_live inp (i + 1) _ hc hcl).2.2.2]
      rcases hL.lt_or_eq with hL1 | hL1
      · rcases hr.lt_or_eq with hr1 | hr1
        · have hin : i ≤ mortgageTermMonths inp := by omega
          have hnpos : 0 < mortgageTermMonths inp := by omega
          have IH := mortgageBalance_closed inp hr1 hL1 i hin
          have hP := mortgagePaymentConst_mul inp hnpos hr1
          have hq : (1 : ℚ) < 1 + inp.mortgageRateMonthly := by linarith
          have hD : 0 < (1 + inp.mortgageRateMonthly) ^ mortgageTermMonths inp - 1 := by
            have := one_lt_pow₀ hq hnpos.ne'
            linarith
          have hqi : (0 : ℚ) < (1 + inp.mortgageRateMonthly) ^ i :=
            pow_pos (by linarith) i
          have e : (mortgagePaymentConst inp -
                mortgageBalance inp i * inp.mortgageRateMonthly) *
                ((1 + inp.mortgageRateMonthly) ^ mortgageTermMonths inp - 1) =
              inp.mortgageRateMonthly * loanAmount inp *
                (1 + inp.mortgageRateMonthly) ^ i := by
            linear_combination hP - inp.mortgageRateMonthly * IH
          nlinarith [e, hD, mul_pos (mul_pos hr1 hL1) hqi]
        · have hnpos : 0 < mortgageTermMonths inp := by omega
          have hn' : (0 : ℚ) < (mortgageTermMonths inp : ℚ) := by exact_mod_cast hnpos
          have hP := mortgagePaymentConst_zero_rate inp hnpos hr1.symm
          rw [← hr1]
          nlinarith [hP, hn', hL1]
      · have h0 := mortgageBalance_of_loan_zero inp hL1.symm i
        rw [h0] at hc
        exact absurd hc.2 (lt_irrefl 0)
  · rw [mortgageBalance_succ_step inp i, (mortStep_dead inp (i + 1) _ hc).2.2.2]
    exact mortgageBalance_nonneg inp hL i

/-- C6.  For every run with a non-negative loan amount, a non-negative
monthly mortgage rate and a positive mortgage term, and for every month
`i ≥ 1`: the reported mortgage payment equals interest plus principal (in
months without a payment all three are 0, so the identity holds there too),
and the reported balance satisfies
`mortgageBalance[i] = mortgageBalance[i-1] - mortgagePrincipal[i]`. -/
theorem payment_split_and_balance_recurrence (inp : Inputs)
    (hL : 0 ≤ loanAmount inp) (hr : 0 ≤ inp.mortgageRateMonthly)
    (hn : 0 < inp.mortgageTermYears) :
    ∀ i, 1 ≤ i →
      (monthRecord inp i).mortgagePayment =
        (monthRecord inp i).mortgageInterest + (monthRecord inp i).mortgagePrincipal ∧
      (monthRecord inp i).mortgageBalance =
        (monthRecord inp (i - 1)).mortgageBalance - (monthRecord inp i).mortgagePrincipal := by
  intro i hi
  obtain ⟨k, rfl⟩ : ∃ k, i = k + 1 := ⟨i - 1, by omega⟩
  have hk1 : k + 1 ≠ 0 := by omega
  have hnm : 0 < mortgageTermMonths inp := by
    unfold mortgageTermMonths
    omega
  constructor
  · simp only [monthRecord, if_neg hk1]
    exact mortStep_payment_split inp (k + 1) (mortgageBalance inp (k + 1 - 1))
  · simp only [monthRecord, if_neg hk1, Nat.add_sub_cancel]
    rw [stepAt, Nat.add_sub_cancel]
    by_cases hc : k + 1 ≤ mortgageTermMonths inp ∧ 0 < mortgageBalance inp k
    · by_cases hcl : mortgageBalance inp k <
          mortgagePaymentConst inp - mortgageBalance inp k * inp.mortgageRateMonthly
      · rw [mortgageBalance_succ_step inp k, (mortStep_clamp inp (k + 1) _ hc hcl).2.2.2,
          (mortStep_clamp inp (k + 1) _ hc hcl).2.2.1]
      · rw [mortgageBalance_succ_step inp k, (mortStep_live inp (k + 1) _ hc hcl).2.2.2,
          (mortStep_live inp (k + 1) _ hc hcl).2.2.1]
    · have hz := mortStep_dead inp (k + 1) _ hc
      rw [mortgageBalance_succ_step inp k, hz.2.2.2, hz.2.2.1]
      have hbk : mortgageBalance inp k = 0 := by
        by_cases hterm : k + 1 ≤ mortgageTermMonths inp
        · have hb0 : ¬ 0 < mortgageBalance inp k := fun hb => hc ⟨hterm, hb⟩
          have := mortgageBalance_nonneg inp hL k
          linarith [not_lt.mp hb0]
        · exact mortgageBalance_beyond inp hnm hL hr k (by omega)
      rw [hbk]
      ring

/-- C7.  For every run with a non-negative loan amount and non-negative
monthly mortgage rate: the reported mortgage balance sequence is
monotonically non-increasing; and unconditionally, once a month `i ≥ 1` is
past the mortgage term or sees a non-positive prior balance, every month
`j ≥ i` reports payment, interest and principal 0 and balance 0 (the
paid-off state is terminal and absorbing). -/
theorem balance_monotone_and_payoff_absorbing (inp : Inputs)
    (hL : 0 ≤ loanAmount inp) (hr : 0 ≤ inp.mortgageRateMonthly) :
    (∀ i, 1 ≤ i →
      (monthRecord inp i).mortgageBalance ≤ (monthRecord inp (i - 1)).mortgageBalance) ∧
    (∀ i, 1 ≤ i →
      (mortgageTermMonths inp < i ∨ (monthRecord inp (i - 1)).mortgageBalance ≤ 0) →
      ∀ j, i ≤ j →
        (monthRecord inp j).mortgagePayment = 0 ∧
        (monthRecord inp j).mortgageInterest = 0 ∧
        (monthRecord inp j).mortgagePrincipal = 0 ∧
        (monthRecord inp j).mortgageBalance = 0) := by
  constructor
  · intro i hi
    obtain ⟨k, rfl⟩ : ∃ k, i = k + 1 := ⟨i - 1, by omega⟩
    simp only [monthRecord, Nat.add_sub_cancel]
    exact mortgageBalance_mono inp hL hr k
  · intro i hi hcond
    simp only [monthRecord] at hcond
    have hbi : mortgageBalance inp i = 0 := by
      obtain ⟨k, rfl⟩ : ∃ k, i = k + 1 := ⟨i - 1, by omega⟩
      rw [Nat.add_sub_cancel] at hcond
      have hc : ¬(k + 1 ≤ mortgageTermMonths inp ∧ 0 < mortgageBalance inp k) := by
        rcases hcond with h | h
        · rintro ⟨h1, -⟩
          omega
        · rintro ⟨-, h2⟩
          linarith
      rw [mortgageBalance_succ_step inp k]
      exact (mortStep_dead inp (k + 1) _ hc).2.2.2
    intro j hij
    obtain ⟨m, rfl⟩ : ∃ m, j = m + 1 := ⟨j - 1, by omega⟩
    have hm0 : m + 1 ≠ 0 := by omega
    have hdead : ¬(m + 1 ≤ mortgageTermMonths inp ∧ 0 < mortgageBalance inp m) := by
      rcases Nat.lt_or_ge i (m + 1) with hlt | hge
      · have hbm : mortgageBalance inp m = 0 :=
          mortgageBalance_zero_of_le inp hbi (by omega)
        rintro ⟨-, h2⟩
        rw [hbm] at h2
        exact lt_irrefl 0 h2
      · have : m + 1 = i := by omega
        subst this
        rcases hcond with h | h
        · rintro ⟨h1, -⟩
          omega
        · rintro ⟨-, h2⟩
          rw [Nat.add_sub_cancel] at h
          linarith
    have hz := mortStep_dead inp (m + 1) (mortgageBalance inp m) hdead
    refine ⟨?_, ?_, ?_, ?_⟩
    · simp only [monthRecord, if_neg hm0]
      rw [stepAt, Nat.add_sub_cancel]
      exact hz.1
    · simp only [monthRecord, if_neg hm0]
      rw [stepAt, Nat.add_sub_cancel]
      exact hz.2.1
    · simp only [monthRecord, if_neg hm0]
      rw [stepAt, Nat.add_sub_cancel]
      exact hz.2.2.1
    · simp only [monthRecord]
      rw [mortgageBalance_succ_step inp m]
      exact hz.2.2.2



/-- If the scan returns a month, it is in range, satisfies the break-even
test, and every earlier scanned month fails it. -/
lemma firstGE_some_spec (inp : Inputs) :
    ∀ (fuel start i : ℕ), firstGE inp start fuel = some i →
      start ≤ i ∧ i < start + fuel ∧ rentCumNPV inp i ≤ buyCumNPV inp i ∧
        ∀ j, start ≤ j → j < i → buyCumNPV inp j < rentCumNPV inp j := by
  intro fuel
  induction fuel with
  | zero => intro s i h; simp [firstGE] at h
  | succ f ih =>
    intro s i h
    rw [firstGE] at h
    by_cases hc : rentCumNPV inp s ≤ buyCumNPV inp s
    · rw [if_pos hc] at h
      obtain rfl : s = i := by simpa using h
      exact ⟨le_rfl, by omega, hc, fun j h1 h2 => absurd h2 (by omega)⟩
    · rw [if_neg hc] at h
      obtain ⟨h1, h2, h3, h4⟩ := ih (s + 1) i h
      refine ⟨by omega, by omega, h3, ?_⟩
      intro j hj1 hj2
      rcases eq_or_lt_of_le hj1 with rfl | hlt
      · exact not_le.mp hc
      · exact h4 j (by omega) hj2

/-- If the scan returns nothing, every scanned month fails the test. -/
lemma firstGE_none_spec (inp : Inputs) :
    ∀ (fuel start : ℕ), firstGE inp start fuel = none →
      ∀ j, start ≤ j → j < start + fuel → buyCumNPV inp j < rentCumNPV inp j := by
  intro fuel
  induction fuel with
  | zero => intro s _ j _ hj; omega
  | succ f ih =>
    intro s h j hj1 hj2
    rw [firstGE] at h
    by_cases hc : rentCumNPV inp s ≤ buyCumNPV inp s
    · rw [if_pos hc] at h
      exact absurd h (by simp)
    · rw [if_neg hc] at h
      rcases eq_or_lt_of_le hj1 with rfl | hlt
      · exact not_le.mp hc
      · exact ih (s + 1) h j (by omega) (by omega)

/-- C5.  For every run: when `breakEvenMonthIndex` is reported as month `i`,
then `i` lies in `0..months`, that month's buy cumulative NPV is at least its
rent cumulative NPV, every earlier month's buy cumulative NPV is strictly
below its rent cumulative NPV (so `i` is the least such index, and a month-0
tie reports 0), and `breakEvenYears = i / 12`; when no index is reported, no
month in `0..months` satisfies the test and `breakEvenYears` is undefined
(no error is raised — the run still returns normally). -/
theorem breakEven_least_month_buy_ge_rent (inp : Inputs) :
    (∀ i, (runModel inp).summary.breakEvenMonthIndex = some i →
      i ≤ months inp ∧
      (monthRecord inp i).rentCumulativeNPV ≤ (monthRecord inp i).buyCumulativeNPV ∧
      (∀ j, j < i →
        (monthRecord inp j).buyCumulativeNPV < (monthRecord inp j).rentCumulativeNPV) ∧
      (runModel inp).summary.breakEvenYears = some ((i : ℚ) / 12)) ∧
    ((runModel inp).summary.breakEvenMonthIndex = none →
      (∀ i, i ≤ months inp →
        (monthRecord inp i).buyCumulativeNPV < (monthRecord inp i).rentCumulativeNPV) ∧
      (runModel inp).summary.breakEvenYears = none) ∧
    ((monthRecord inp 0).rentCumulativeNPV ≤ (monthRecord inp 0).buyCumulativeNPV →
      (runModel inp).summary.breakEvenMonthIndex = some 0) := by
  refine ⟨?_, ?_, ?_⟩
  · intro i h
    have h' : firstGE inp 0 (months inp + 1) = some i := by
      simpa [runModel, summaryOf, breakEvenMonthIndex] using h
    obtain ⟨-, h2, h3, h4⟩ := firstGE_some_spec inp (months inp + 1) 0 i h'
    refine ⟨by omega, by simpa [monthRecord] using h3, ?_, ?_⟩
    · intro j hj
      simpa [monthRecord] using h4 j (Nat.zero_le j) hj
    · simp [runModel, summaryOf, breakEvenMonthIndex, h']
  · intro h
    have h' : firstGE inp 0 (months inp + 1) = none := by
      simpa [runModel, summaryOf, breakEvenMonthIndex] using h
    refine ⟨?_, ?_⟩
    · intro i hi
      simpa [monthRecord] using
        firstGE_none_spec inp (months inp + 1) 0 h' i (Nat.zero_le i) (by omega)
    · simp [runModel, summaryOf, breakEvenMonthIndex, h']
  · intro h
    have h0 : rentCumNPV inp 0 ≤ buyCumNPV inp 0 := by simpa [monthRecord] using h
    simp [runModel, summaryOf, breakEvenMonthIndex, firstGE, if_pos h0]

/-- C8.  For every annual rate `r > -1`, compounding the converted monthly
rate twelve times reproduces the annual rate exactly (over the reals):
`(1 + annualToMonthly r) ^ 12 - 1 = r`. -/
theorem annualToMonthly_roundtrip (r : ℝ) (h : -1 < r) :
    (1 + annualToMonthly r) ^ (12 : ℕ) - 1 = r := by
  have h0 : (0 : ℝ) ≤ 1 + r := by linarith
  have h1 : 1 + annualToMonthly r = (1 + r) ^ ((1 : ℝ) / 12) := by
    unfold annualToMonthly
    ring
  rw [h1, ← Real.rpow_natCast ((1 + r) ^ ((1 : ℝ) / 12)) 12, ← Real.rpow_mul h0]
  norm_num

/-- Witness for C8 at the concrete rate `r = 0`. -/
theorem annualToMonthly_roundtrip_witness :
    ((-1 : ℝ) < 0) ∧ (1 + annualToMonthly 0) ^ (12 : ℕ) - 1 = 0 :=
  ⟨by norm_num, annualToMonthly_roundtrip 0 (by norm_num)⟩



/-- Amended C10.  For every run: the sale month is `sellAfterYears * 12`
when `sellAfterYears` is given and the final month otherwise, and the sale
fires only inside the loop (months 1 and up).  Whenever `sellMonthIndex ≥ 1`
the record at exactly that month carries
`saleProceeds = homeValue - sellingCostPct * homeValue - remaining balance`;
when `sellMonthIndex = 0` (i.e. `sellAfterYears = 0`) no record carries any
sale proceeds — month 0's `saleProceeds` is hard-coded to 0; every month
other than the sale month has `saleProceeds = 0` (so a sale month beyond the
horizon leaves every produced record without sale proceeds); the sale
proceeds enter the sale month's buy cash flow as a positive inflow on top of
the operating outflows; and the summary reports this `sellMonthIndex`. -/
theorem sale_applied_only_from_month_one (inp : Inputs) :
    (inp.sellAfterYears = none → sellMonthIndex inp = months inp) ∧
    (∀ y, inp.sellAfterYears = some y → sellMonthIndex inp = y * 12) ∧
    (1 ≤ sellMonthIndex inp →
      (monthRecord inp (sellMonthIndex inp)).saleProceeds =
        homeValueAt inp (sellMonthIndex inp) -
          homeValueAt inp (sellMonthIndex inp) * inp.sellingCostPercentOfHomeValue -
          mortgageBalance inp (sellMonthIndex inp)) ∧
    (sellMonthIndex inp = 0 → ∀ i, (monthRecord inp i).saleProceeds = 0) ∧
    (∀ i, i ≠ sellMonthIndex inp → (monthRecord inp i).saleProceeds = 0) ∧
    (∀ i, 1 ≤ i → (monthRecord inp i).buyCF =
      -((monthRecord inp i).mortgagePayment + (monthRecord inp i).propertyTax +
          (monthRecord inp i).maintenance + (monthRecord inp i).insurance +
          (monthRecord inp i).hoa) + (monthRecord inp i).saleProceeds) ∧
    (runModel inp).summary.sellMonthIndex = sellMonthIndex inp := by
  refine ⟨?_, ?_, ?_, ?_, ?_, ?_, ?_⟩
  · intro h
    simp [sellMonthIndex, h]
  · intro y h
    simp [sellMonthIndex, h]
  · intro h1
    have hcond : 1 ≤ sellMonthIndex inp ∧ sellMonthIndex inp = sellMonthIndex inp :=
      ⟨h1, rfl⟩
    simp only [monthRecord]
    unfold saleProceedsAt
    rw [if_pos hcond]
  · intro h0 i
    have hcond : ¬(1 ≤ i ∧ i = sellMonthIndex inp) := by
      rintro ⟨hge, hEq⟩
      rw [h0] at hEq
      omega
    simp only [monthRecord]
    unfold saleProceedsAt
    rw [if_neg hcond]
  · intro i hne
    have hcond : ¬(1 ≤ i ∧ i = sellMonthIndex inp) := by
      rintro ⟨-, hEq⟩
      exact hne hEq
    simp only [monthRecord]
    unfold saleProceedsAt
    rw [if_neg hcond]
  · intro i hi
    have hi0 : i ≠ 0 := by omega
    simp only [monthRecord, buyCF, if_neg hi0]
  · simp [runModel, summaryOf]

/-- Amended C4.  `runModel` performs no input validation and has no failure
path: for every input — including a zero mortgage term alongside a positive
loan amount — it returns a fully computed sequence of `months + 1` records;
with a zero term the mortgage simply contributes nothing from month 1 on
(payment, interest, principal and balance all 0). -/
theorem runModel_total_no_validation (inp : Inputs) :
    (runModel inp).monthly.length = months inp + 1 ∧
    (inp.mortgageTermYears = 0 → ∀ i, 1 ≤ i →
      (monthRecord inp i).mortgagePayment = 0 ∧
      (monthRecord inp i).mortgageInterest = 0 ∧
      (monthRecord inp i).mortgagePrincipal = 0 ∧
      (monthRecord inp i).mortgageBalance = 0) := by
  constructor
  · simp [runModel, monthlyList]
  · intro h i hi
    obtain ⟨k, rfl⟩ : ∃ k, i = k + 1 := ⟨i - 1, by omega⟩
    have hm0 : k + 1 ≠ 0 := by omega
    have hdead : ¬(k + 1 ≤ mortgageTermMonths inp ∧ 0 < mortgageBalance inp k) := by
      rintro ⟨hterm, -⟩
      unfold mortgageTermMonths at hterm
      omega
    have hz := mortStep_dead inp (k + 1) (mortgageBalance inp k) hdead
    refine ⟨?_, ?_, ?_, ?_⟩
    · simp only [monthRecord, if_neg hm0]
      rw [stepAt, Nat.add_sub_cancel]
      exact hz.1
    · simp only [monthRecord, if_neg hm0]
      rw [stepAt, Nat.add_sub_cancel]
      exact hz.2.1
    · simp only [monthRecord, if_neg hm0]
      rw [stepAt, Nat.add_sub_cancel]
      exact hz.2.2.1
    · simp only [monthRecord]
      rw [mortgageBalance_succ_step inp k]
      exact hz.2.2.2



/-- C9.  The zero-rate branch of the payment formula is straight-line
(`principal / numPayments`), and in the spec's example scenario B — a
$240,000 loan at 0% over a 10-year term — every month within the term has
payment exactly $2,000, interest 0 and principal $2,000, and the balance is
exactly 0 at the end of the term. -/
theorem zero_rate_straight_line_amortization :
    (∀ (loan : ℚ) (n : ℕ), 0 < loan → 0 < n →
      calculateMortgagePayment loan 0 n = loan / n) ∧
    (∀ i, 1 ≤ i → i ≤ 120 →
      (monthRecord zeroRateInput i).mortgagePayment = 2000 ∧
      (monthRecord zeroRateInput i).mortgageInterest = 0 ∧
      (monthRecord zeroRateInput i).mortgagePrincipal = 2000) ∧
    (monthRecord zeroRateInput 120).mortgageBalance = 0 := by
  have h120 : mortgageTermMonths zeroRateInput = 120 := rfl
  have hr0 : zeroRateInput.mortgageRateMonthly = 0 := rfl
  have hLv : loanAmount zeroRateInput = 240000 := by norm_num [loanAmount, zeroRateInput]
  have hn : 0 < mortgageTermMonths zeroRateInput := by rw [h120]; norm_num
  have hLpos : 0 < loanAmount zeroRateInput := by rw [hLv]; norm_num
  have hP : mortgagePaymentConst zeroRateInput = 2000 := by
    have h := mortgagePaymentConst_zero_rate zeroRateInput hn hr0
    rw [h120, hLv] at h
    push_cast at h
    linarith
  have hbal : ∀ k, k ≤ 120 →
      mortgageBalance zeroRateInput k = 2000 * (120 - (k : ℚ)) := by
    intro k hk
    have h := mortgageBalance_linear zeroRateInput hn hr0 hLpos k (by rw [h120]; exact hk)
    rw [h120, hLv] at h
    push_cast at h
    linarith
  refine ⟨?_, ?_, ?_⟩
  · intro loan n _ _
    unfold calculateMortgagePayment
    rw [if_pos rfl]
  · intro i hi1 hi2
    obtain ⟨k, rfl⟩ : ∃ k, i = k + 1 := ⟨i - 1, by omega⟩
    have hm0 : k + 1 ≠ 0 := by omega
    have hkQ : (k : ℚ) ≤ 119 := by exact_mod_cast (by omega : k ≤ 119)
    have hbk : mortgageBalance zeroRateInput k = 2000 * (120 - (k : ℚ)) :=
      hbal k (by omega)
    have hbkpos : 0 < mortgageBalance zeroRateInput k := by
      rw [hbk]
      nlinarith
    have hc : k + 1 ≤ mortgageTermMonths zeroRateInput ∧
        0 < mortgageBalance zeroRateInput k := ⟨by rw [h120]; omega, hbkpos⟩
    have hnc : ¬(mortgageBalance zeroRateInput k <
        mortgagePaymentConst zeroRateInput -
          mortgageBalance zeroRateInput k * zeroRateInput.mortgageRateMonthly) := by
      rw [hP, hr0, mul_zero, sub_zero, hbk]
      push_neg
      nlinarith
    have hlive := mortStep_live zeroRateInput (k + 1) _ hc hnc
    refine ⟨?_, ?_, ?_⟩
    · simp only [monthRecord, if_neg hm0]
      rw [stepAt, Nat.add_sub_cancel, hlive.1, hP]
    · simp only [monthRecord, if_neg hm0]
      rw [stepAt, Nat.add_sub_cancel, hlive.2.1, hr0, mul_zero]
    · simp only [monthRecord, if_neg hm0]
      rw [stepAt, Nat.add_sub_cancel, hlive.2.2.1, hP, hr0, mul_zero, sub_zero]
  · simp only [monthRecord]
    rw [hbal 120 le_rfl]
    norm_num

/-- Witness for C9 at the concrete loan $240,000 over 120 payments and at
month 1 of the scenario run. -/
theorem zero_rate_straight_line_amortization_witness :
    ((0 : ℚ) < 240000 ∧ 0 < (120 : ℕ) ∧
      calculateMortgagePayment 240000 0 120 = 240000 / ((120 : ℕ) : ℚ)) ∧
    (1 ≤ 1 ∧ 1 ≤ 120 ∧ (monthRecord zeroRateInput 1).mortgagePayment = 2000) :=
  ⟨⟨by norm_num, by norm_num,
      zero_rate_straight_line_amortization.1 240000 120 (by norm_num) (by norm_num)⟩,
    ⟨le_rfl, by norm_num,
      (zero_rate_straight_line_amortization.2.1 1 le_rfl (by norm_num)).1⟩⟩

/-- Witness for C6 at month 1 of the zero-rate run. -/
theorem payment_split_and_balance_recurrence_witness :
    (0 ≤ loanAmount zeroRateInput ∧ 0 ≤ zeroRateInput.mortgageRateMonthly ∧
      0 < zeroRateInput.mortgageTermYears ∧ 1 ≤ 1) ∧
    (monthRecord zeroRateInput 1).mortgagePayment =
      (monthRecord zeroRateInput 1).mortgageInterest +
        (monthRecord zeroRateInput 1).mortgagePrincipal ∧
    (monthRecord zeroRateInput 1).mortgageBalance =
      (monthRecord zeroRateInput (1 - 1)).mortgageBalance -
        (monthRecord zeroRateInput 1).mortgagePrincipal := by
  have h := payment_split_and_balance_recurrence zeroRateInput
    (by norm_num [loanAmount, zeroRateInput]) (by norm_num [zeroRateInput])
    (by norm_num [zeroRateInput]) 1 le_rfl
  exact ⟨⟨by norm_num [loanAmount, zeroRateInput], by norm_num [zeroRateInput],
    by norm_num [zeroRateInput], le_rfl⟩, h.1, h.2⟩

/-- Witness for C7 at month 1 of the zero-rate run. -/
theorem balance_monotone_and_payoff_absorbing_witness :
    (0 ≤ loanAmount zeroRateInput ∧ 0 ≤ zeroRateInput.mortgageRateMonthly) ∧
    (monthRecord zeroRateInput 1).mortgageBalance ≤
      (monthRecord zeroRateInput (1 - 1)).mortgageBalance := by
  have h := (balance_monotone_and_payoff_absorbing zeroRateInput
    (by norm_num [loanAmount, zeroRateInput]) (by norm_num [zeroRateInput])).1 1 le_rfl
  exact ⟨⟨by norm_num [loanAmount, zeroRateInput], by norm_num [zeroRateInput]⟩, h⟩

/-- Witness for C5: a run that ties at month 0 reports break-even at month 0
with zero years. -/
theorem breakEven_least_month_buy_ge_rent_witness :
    (monthRecord tieInput 0).rentCumulativeNPV ≤
      (monthRecord tieInput 0).buyCumulativeNPV ∧
    (runModel tieInput).summary.breakEvenMonthIndex = some 0 ∧
    (runModel tieInput).summary.breakEvenYears = some ((0 : ℚ) / 12) := by
  have h0 : (monthRecord tieInput 0).rentCumulativeNPV ≤
      (monthRecord tieInput 0).buyCumulativeNPV := by
    norm_num [monthRecord, rentCumNPV, buyCumNPV, rentCF, buyCF, downPayment,
      discountFactorAt, tieInput]
  have h1 := (breakEven_least_month_buy_ge_rent tieInput).2.2 h0
  exact ⟨h0, h1, ((breakEven_least_month_buy_ge_rent tieInput).1 0 h1).2.2.2⟩

/-- Witness for the amended C10: the run selling after 1 year of a 2-year
horizon carries the net proceeds at month 12, and the run with
`sellAfterYears = 0` carries none anywhere. -/
theorem sale_applied_only_from_month_one_witness :
    (1 ≤ sellMonthIndex sellInput ∧
      (monthRecord sellInput (sellMonthIndex sellInput)).saleProceeds =
        homeValueAt sellInput (sellMonthIndex sellInput) -
          homeValueAt sellInput (sellMonthIndex sellInput) *
            sellInput.sellingCostPercentOfHomeValue -
          mortgageBalance sellInput (sellMonthIndex sellInput)) ∧
    (sellMonthIndex sellZeroInput = 0 ∧
      (monthRecord sellZeroInput 0).saleProceeds = 0) ∧
    (runModel sellInput).summary.sellMonthIndex = sellMonthIndex sellInput :=
  ⟨⟨by decide, (sale_applied_only_from_month_one sellInput).2.2.1 (by decide)⟩,
    ⟨rfl, (sale_applied_only_from_month_one sellZeroInput).2.2.2.1 rfl 0⟩,
    (sale_applied_only_from_month_one sellInput).2.2.2.2.2.2⟩

/-- C10 counterexample.  On the run with `sellAfterYears = some 0` the sale
month computes to 0, but the loop applies sales only at months 1 and up and
the month-0 record hard-codes `saleProceeds: 0`, so the record at the sale
month does NOT carry `homeValue - sellingCosts - balance` (which would be
$14,000 here): the frozen claim is false at this input. -/
theorem sale_skipped_when_sellMonthIndex_zero :
    sellZeroInput.sellAfterYears = some 0 ∧
    sellMonthIndex sellZeroInput = 0 ∧
    (monthRecord sellZeroInput (sellMonthIndex sellZeroInput)).saleProceeds = 0 ∧
    (monthRecord sellZeroInput (sellMonthIndex sellZeroInput)).saleProceeds ≠
      homeValueAt sellZeroInput (sellMonthIndex sellZeroInput) -
        homeValueAt sellZeroInput (sellMonthIndex sellZeroInput) *
          sellZeroInput.sellingCostPercentOfHomeValue -
        mortgageBalance sellZeroInput (sellMonthIndex sellZeroInput) := by
  refine ⟨rfl, rfl, ?_, ?_⟩
  · norm_num [monthRecord, saleProceedsAt, sellMonthIndex, sellZeroInput]
  · norm_num [monthRecord, saleProceedsAt, homeValueAt, mortgageBalance, loanAmount,
      sellMonthIndex, sellZeroInput]

/-- Witness for the amended C4 at the concrete invalid input. -/
theorem runModel_total_no_validation_witness :
    zeroTermInput.mortgageTermYears = 0 ∧ (1 : ℕ) ≤ 1 ∧
    (monthRecord zeroTermInput 1).mortgagePayment = 0 ∧
    (monthRecord zeroTermInput 1).mortgageBalance = 0 := by
  have h := (runModel_total_no_validation zeroTermInput).2 rfl 1 le_rfl
  exact ⟨rfl, le_rfl, h.1, h.2.2.2⟩

/-- C4 counterexample.  On the invalid input (zero mortgage term, positive
$240,000 loan), `runModel` does not fail: it returns a fully computed
sequence of `months + 1 = 25` records, with the mortgage silently
contributing nothing (month-1 payment 0 and balance 0). -/
theorem runModel_no_failure_on_invalid_input :
    0 < loanAmount zeroTermInput ∧ zeroTermInput.mortgageTermYears = 0 ∧
    (runModel zeroTermInput).monthly.length = months zeroTermInput + 1 ∧
    (monthRecord zeroTermInput 1).mortgagePayment = 0 ∧
    (monthRecord zeroTermInput 1).mortgageBalance = 0 := by
  refine ⟨by norm_num [loanAmount, zeroTermInput], rfl, by simp [runModel, monthlyList], ?_, ?_⟩
  · norm_num [monthRecord, stepAt, mortStep, mortgageTermMonths, zeroTermInput]
  · norm_num [mortgageBalance, monthRecord, mortStep, mortgageTermMonths, zeroTermInput]

/-- C1 evaluation at the failing input.  At month 0 the code reports the buy
cumulative NPV as the discounted cash flow alone (the rent side likewise),
and this differs from the claimed value
`discounted cash-flow sum + (homeValue - mortgageBalance) * discountFactor`:
the reported value is -20000 while the claimed expression evaluates to 0. -/
theorem buy_cumulative_npv_omits_equity_term :
    (monthRecord failInput 0).rentCumulativeNPV =
      (monthRecord failInput 0).rentDiscountedCF ∧
    (monthRecord failInput 0).buyCumulativeNPV =
      (monthRecord failInput 0).buyDiscountedCF ∧
    (monthRecord failInput 0).buyCumulativeNPV = -20000 ∧
    (monthRecord failInput 0).buyCumulativeNPV ≠
      (monthRecord failInput 0).buyDiscountedCF +
        ((monthRecord failInput 0).homeValue - (monthRecord failInput 0).mortgageBalance) *
          (monthRecord failInput 0).discountFactor := by
  refine ⟨rfl, rfl, ?_, ?_⟩
  · norm_num [monthRecord, buyCumNPV, buyCF, discountFactorAt, downPayment, failInput]
  · norm_num [monthRecord, buyCumNPV, buyCF, discountFactorAt, downPayment,
      homeValueAt, mortgageBalance, loanAmount, failInput]

/-- C2 evaluation at the failing input.  The summary's buy total NPV equals
the final month's buy cumulative NPV (the plain discounted cash-flow sum,
whose sell-month flow already contains the net sale proceeds), the rent
total equals the final rent cumulative NPV, and `npvDifference = rent - buy`
— but the buy total does NOT equal that sum plus the final
`(homeValue - balance) * discountFactor` term the claim adds. -/
theorem buy_total_npv_omits_terminal_equity :
    (runModel failInput).summary.buyTotalNPV =
      (monthRecord failInput (months failInput)).buyCumulativeNPV ∧
    (runModel failInput).summary.rentTotalNPV =
      (monthRecord failInput (months failInput)).rentCumulativeNPV ∧
    (runModel failInput).summary.npvDifference =
      (runModel failInput).summary.rentTotalNPV - (runModel failInput).summary.buyTotalNPV ∧
    (runModel failInput).summary.buyTotalNPV ≠
      buyCumNPV failInput (months failInput) +
        (homeValueAt failInput (months failInput) -
            mortgageBalance failInput (months failInput)) *
          discountFactorAt failInput (months failInput) := by
  refine ⟨rfl, rfl, rfl, ?_⟩
  norm_num [runModel, summaryOf, months, buyCumNPV, buyCF, stepAt, mortStep,
    mortgageBalance, mortgagePaymentConst, mortgageTermMonths, calculateMortgagePayment,
    loanAmount, downPayment, saleProceedsAt, sellMonthIndex, homeValueAt,
    discountFactorAt, propertyTaxRateMonthly, maintenanceRateMonthly, insuranceMonthly,
    failInput]

/-- C3 evaluation at the failing input: the value the claimed `equity` field
should carry at month 0, `homeValue - mortgageBalance`, is the $20,000 down
payment — but the month records built by `runModel` (see `MonthRecord` and
`monthRecord`) contain no equity field at all. -/
theorem equity_value_at_failing_input :
    (monthRecord failInput 0).homeValue - (monthRecord failInput 0).mortgageBalance =
      20000 := by
  norm_num [monthRecord, homeValueAt, mortgageBalance, loanAmount, failInput]


end NpvMortgage
